import Mathlib

/-!
Verification development for the bookfeeder pipeline (src/bookfeeder.py).

The pipeline stages embedded here:
- Importer: `import_books_from_csv` (bookfeeder.py lines 115-148)
- Reconciler: `Library.scan_and_update_books` (lines 46-70)
- Differ: `Library.check_goodreads_rss` (lines 72-112)
- Matcher: `search_on_myanonamouse` (lines 209-261)

Database tables are embedded as lists of rows in insertion order; SQLAlchemy
`query(...).filter_by(...).first()` becomes `List.find?` (the session
autoflushes pending `session.add` rows, so within a run a query sees rows
added earlier in the same run, which the list-state threading reproduces).
Python string operations are embedded over `String` as lists of characters.
-/

/-- Python whitespace characters recognised by `str.strip()` / `str.split()`
(ASCII subset, which covers all data handled by the program). -/
def pyIsSpace (c : Char) : Bool :=
  c = ' ' || c = '\t' || c = '\n' || c = '\r' || c = '\x0b' || c = '\x0c'

/-- Python `s.strip()`: remove leading and trailing whitespace. -/
def pyStrip (s : String) : String :=
  String.mk (((s.data.dropWhile pyIsSpace).reverse.dropWhile pyIsSpace).reverse)

/-- Python `s.lower()` (ASCII case folding, as used on the data handled). -/
def pyLower (s : String) : String :=
  String.mk (s.data.map Char.toLower)

/-- Python truthiness of an optional string: `None` and `""` are falsy. -/
def pyTruthy (o : Option String) : Bool :=
  match o with
  | none => false
  | some s => !(s == "")

/-- Accumulator pass for `pySplit`: collect maximal runs of non-whitespace
characters, discarding the whitespace between them. -/
def splitWsAux : List Char → List Char → List (List Char)
  | [], acc => if acc.isEmpty then [] else [acc.reverse]
  | c :: cs, acc =>
    if pyIsSpace c then
      if acc.isEmpty then splitWsAux cs [] else acc.reverse :: splitWsAux cs []
    else splitWsAux cs (c :: acc)

/-- Python `s.split()` with no separator: split on whitespace runs and
discard empty pieces. -/
def pySplit (s : String) : List String :=
  (splitWsAux s.data []).map String.mk

/-- Python substring test `needle in hay` over character lists. -/
def listContainsSub (needle : List Char) : List Char → Bool
  | [] => needle.isEmpty
  | c :: rest => needle.isPrefixOf (c :: rest) || listContainsSub needle rest

/-- Book status enumeration (bookfeeder.py lines 12-14). -/
inductive BookStatus where
  | ACTIVE
  | MISSING
deriving DecidableEq

/-- A row of the `books` table (class `Book`, lines 17-33). The
autoincrement id column is omitted; row identity is positional. -/
structure Book where
  authors : String
  title : String
  status : BookStatus
deriving DecidableEq

/-- Method `Book.mark_as_active` (lines 31-33). -/
def Book.mark_as_active (b : Book) : Book :=
  ⟨b.authors, b.title, BookStatus.ACTIVE⟩

/-- Method `Book.mark_as_missing` (lines 27-29); never called by the
reconciler. -/
def Book.mark_as_missing (b : Book) : Book :=
  ⟨b.authors, b.title, BookStatus.MISSING⟩

/-- A row of the `library` table (class `Library`, lines 36-44). -/
structure Library where
  authors : String
  title : String
deriving DecidableEq

/-- One data row produced by `csv.DictReader`: `row.get` of a field yields
`none` when the field is absent. -/
structure CsvRow where
  authors : Option String
  title : Option String
deriving DecidableEq

/-- The observable outcome of `import_books_from_csv`: the library table
after the run, the count the function prints at line 148, and the
Python return value of the function.  The function body (lines 115-148) ends
without a `return` statement, so its return value is `None`, recorded
here as `none`. -/
structure ImportOutcome where
  library : List Library
  printedCount : Nat
  ret : Option Nat
deriving DecidableEq

/-- The body of the per-row loop of `import_books_from_csv`
(lines 130-145), threading the library table and the counter:
`row.get` both fields, skip unless both are truthy, strip both, skip
unless both are still non-empty, then look up an existing row with
`filter_by(authors=..., title=...).first()` and insert only when absent. -/
def importStep (st : List Library × Nat) (row : CsvRow) : List Library × Nat :=
  if pyTruthy row.authors && pyTruthy row.title then
    if !(pyStrip (row.authors.getD "") == "") &&
        !(pyStrip (row.title.getD "") == "") then
      match st.1.find? (fun b => b.authors == pyStrip (row.authors.getD "") &&
          b.title == pyStrip (row.title.getD "")) with
      | some _ => st
      | none =>
        (st.1 ++ [⟨pyStrip (row.authors.getD ""), pyStrip (row.title.getD "")⟩],
          st.2 + 1)
    else st
  else st

/-- Function `import_books_from_csv` (lines 115-148): validate that the
header names both required columns (else `raise ValueError`), fold the
per-row loop over the data rows, commit, print the count and fall off
the end of the function (returning `None`). -/
def import_books_from_csv (fieldnames : List String) (rows : List CsvRow)
    (library : List Library) : Except String ImportOutcome :=
  if !(fieldnames.contains "authors") || !(fieldnames.contains "title") then
    Except.error "CSV file must contain authors and title columns."
  else
    Except.ok ⟨(rows.foldl importStep (library, 0)).1,
      (rows.foldl importStep (library, 0)).2, none⟩

/-- Effect of `book.mark_as_active()` on the queried table: the first row
matching the `filter_by(authors=..., title=...)` lookup is flipped to
ACTIVE in place; all other rows are untouched (lines 60-64). -/
def setFirstActive : List Book → String → String → List Book
  | [], _, _ => []
  | b :: bs, authors, title =>
    if b.authors == authors && b.title == title then b.mark_as_active :: bs
    else b :: setFirstActive bs authors title

/-- The body of the per-library-row loop of `scan_and_update_books`
(lines 56-69): strip both fields, look the pair up in the `books` table
with `filter_by(...).first()`; if found mark that row active, otherwise
append a new ACTIVE row. -/
def Library.scanStep (books : List Book) (lib_book : Library) : List Book :=
  match books.find? (fun b => b.authors == pyStrip lib_book.authors &&
      b.title == pyStrip lib_book.title) with
  | some _ => setFirstActive books (pyStrip lib_book.authors) (pyStrip lib_book.title)
  | none => books ++ [⟨pyStrip lib_book.authors, pyStrip lib_book.title,
      BookStatus.ACTIVE⟩]

/-- Static method `Library.scan_and_update_books` (lines 46-70): fold the
per-row step over the `library` table, then commit. -/
def Library.scan_and_update_books (library_books : List Library)
    (books : List Book) : List Book :=
  library_books.foldl Library.scanStep books

/-- One entry of a parsed feed: `entry.get` of a missing field is `none`
(lines 92-93). -/
structure FeedEntry where
  author_name : Option String
  title : Option String
deriving DecidableEq

/-- One parsed feed as returned by `feedparser.parse`: the `bozo` flag
marks a parse error (line 85) and `entries` lists the items in document
order (line 90). -/
structure Feed where
  bozo : Bool
  entries : List FeedEntry
deriving DecidableEq

/-- One element of the `missing_books` output list: the two-field dict
of authors and title appended at line 110. -/
structure MissingBook where
  authors : String
  title : String
deriving DecidableEq

/-- The body of the per-entry loop of `check_goodreads_rss`
(lines 90-110): skip the entry unless both fields are truthy, strip
both, look the pair up in the `library` table; when not owned, append it
to `missing_books` unless an equal pair was already collected. -/
def entryStep (library : List Library) (missing_books : List MissingBook)
    (entry : FeedEntry) : List MissingBook :=
  if pyTruthy entry.author_name && pyTruthy entry.title then
    match library.find? (fun b => b.authors == pyStrip (entry.author_name.getD "") &&
        b.title == pyStrip (entry.title.getD "")) with
    | some _ => missing_books
    | none =>
      if missing_books.any (fun b => b.authors == pyStrip (entry.author_name.getD "") &&
          b.title == pyStrip (entry.title.getD "")) then
        missing_books
      else missing_books ++
        [⟨pyStrip (entry.author_name.getD ""), pyStrip (entry.title.getD "")⟩]
  else missing_books

/-- The body of the per-feed loop of `check_goodreads_rss` (lines 80-110):
a feed whose parse set the `bozo` flag is skipped entirely; otherwise its
entries are processed in document order. -/
def feedStep (library : List Library) (missing_books : List MissingBook)
    (feed : Feed) : List MissingBook :=
  if feed.bozo then missing_books
  else feed.entries.foldl (entryStep library) missing_books

/-- Static method `Library.check_goodreads_rss` (lines 72-112): fold the
per-feed step over the feeds in input order, starting from the empty
`missing_books` list.  Each element of `feeds` stands for the parse of
the corresponding URL of `feed_urls`. -/
def Library.check_goodreads_rss (feeds : List Feed) (library : List Library) :
    List MissingBook :=
  feeds.foldl (feedStep library) []

/-- One element of the `data` array of the search response
(lines 237-255).  The code reads `r.get` of the name, dl and
id fields; `author_info` carries the structured
id-to-name author mapping, which the code never reads. -/
structure SearchResult where
  name : Option String
  dl : Option String
  id : Option Nat
  author_info : List (String × String)
deriving DecidableEq

/-- Configuration constant `MAM_BASE_URL` (line 184). -/
def MAM_BASE_URL : String := "https://www.myanonamouse.net"

/-- The download URL built at line 258 from the result id field; a missing id
renders as Python `None` inside the f-string. -/
def downloadUrlOf (tid : Option Nat) : String :=
  MAM_BASE_URL ++ "/tor/download.php?tid=" ++
    (match tid with
     | some n => toString n
     | none => "None")

/-- The title filter of line 247: every whitespace-delimited word of the
requested title must occur, lowercased, as a substring of the lowercased
candidate display title. -/
def titleWordsMatch (book_title torrent_title : String) : Bool :=
  (pySplit book_title).all
    (fun word => listContainsSub (pyLower word).data (pyLower torrent_title).data)

/-- The result loop of `search_on_myanonamouse` (lines 243-261): take the
first result whose `name` is truthy and passes the title filter and
whose `dl` field is truthy, and return its download URL; a result
passing the title filter but lacking `dl` falls through to the next
iteration; exhausting the loop returns `None`. -/
def searchLoop (book_title : String) : List SearchResult → Option String
  | [] => none
  | r :: rest =>
    if pyTruthy r.name && titleWordsMatch book_title (r.name.getD "") then
      if pyTruthy r.dl then some (downloadUrlOf r.id)
      else searchLoop book_title rest
    else searchLoop book_title rest

/-- Function `search_on_myanonamouse` (lines 209-261).  The HTTP request
built from `search_text` is external; `results` stands for
the data array of the response JSON (line 237).  An empty result list returns
`None` (lines 238-239); otherwise the result loop runs. -/
def search_on_myanonamouse (book_title book_author : String)
    (results : List SearchResult) : Option String :=
  if results.isEmpty then none
  else searchLoop book_title results

/-- Modelled from the spec: the Normalizer contract of spec section 4.1,
`normalize` collapses all whitespace runs to single spaces and trims
leading and trailing whitespace.  Used only to compare the spec
normalized-equality policy against what the code does. -/
def specNormalize (s : String) : String :=
  String.intercalate " " (pySplit s)

/-- Modelled from the spec: normalized case-insensitive equality, the
comparison the spec prescribes wherever two strings are compared. -/
def specNormEq (a b : String) : Bool :=
  pyLower (specNormalize a) == pyLower (specNormalize b)

/-- The (author, title) pair a CSV row contributes, if any: `none` when
the row is skipped by the guards of lines 134 and 139, otherwise the
stripped pair. -/
def rowPair (row : CsvRow) : Option (String × String) :=
  if pyTruthy row.authors && pyTruthy row.title then
    if !(pyStrip (row.authors.getD "") == "") &&
        !(pyStrip (row.title.getD "") == "") then
      some (pyStrip (row.authors.getD ""), pyStrip (row.title.getD ""))
    else none
  else none

/-- Whether the library table holds a row exactly equal to the pair: the
`filter_by(...).first()` lookup succeeds. -/
def hasPair (library : List Library) (a t : String) : Bool :=
  (library.find? (fun b => b.authors == a && b.title == t)).isSome

/-- The (author, title) pair a feed entry contributes, if any: `none`
when the entry is skipped by the guard of line 96, otherwise the
stripped pair (the differ has no post-strip emptiness guard). -/
def entryPair (entry : FeedEntry) : Option MissingBook :=
  if pyTruthy entry.author_name && pyTruthy entry.title then
    some ⟨pyStrip (entry.author_name.getD ""), pyStrip (entry.title.getD "")⟩
  else none

/-- The flattened wishlist: pairs of the entries of the non-bozo feeds,
feeds in input order, entries in document order. -/
def wishlistSeq (feeds : List Feed) : List MissingBook :=
  ((feeds.filter (fun f => !f.bozo)).map
    (fun f => f.entries.filterMap entryPair)).flatten

/-- Whether the library table owns the pair of a wishlist entry: the
`filter_by(...).first()` lookup of line 105 succeeds. -/
def libHas (library : List Library) (b : MissingBook) : Bool :=
  (library.find? (fun r => r.authors == b.authors && r.title == b.title)).isSome

/-- One step of first-seen deduplication. -/
def dedupStep (acc : List MissingBook) (b : MissingBook) : List MissingBook :=
  if acc.any (fun m => m.authors == b.authors && m.title == b.title) then acc
  else acc ++ [b]

/-- First-seen-order deduplication of a sequence of pairs. -/
def dedupFirstSeen (l : List MissingBook) : List MissingBook :=
  l.foldl dedupStep []

/-- Declarative description of the differ output: the non-owned wishlist
pairs in first-seen order, deduplicated. -/
def differSpec (feeds : List Feed) (library : List Library) : List MissingBook :=
  dedupFirstSeen ((wishlistSeq feeds).filter (fun b => !(libHas library b)))

/-- Proof-side regrouping of the differ per-entry work on an already
extracted pair: drop it when owned, otherwise deduplicate. -/
def collectStep (library : List Library) (acc : List MissingBook)
    (b : MissingBook) : List MissingBook :=
  if libHas library b then acc else dedupStep acc b

/-- How the reconciler may change one existing `books` row: the authors
and title columns are untouched and the status is either left unchanged
or set to ACTIVE. -/
def bookRefines (b b' : Book) : Prop :=
  b'.authors = b.authors ∧ b'.title = b.title ∧
    (b'.status = b.status ∨ b'.status = BookStatus.ACTIVE)
/-- A skipped CSV row (blank or missing field) leaves the import state
unchanged. -/
theorem importStep_of_none (st : List Library × Nat) (row : CsvRow)
    (h : rowPair row = none) : importStep st row = st := by
  unfold importStep
  unfold rowPair at h
  by_cases h1 : (pyTruthy row.authors && pyTruthy row.title) = true
  · rw [if_pos h1] at h ⊢
    by_cases h2 : (!(pyStrip (row.authors.getD "") == "") &&
        !(pyStrip (row.title.getD "") == "")) = true
    · rw [if_pos h2] at h
      cases h
    · rw [if_neg h2]
  · rw [if_neg h1]

/-- A valid CSV row either finds its exact stripped pair already present
and changes nothing, or appends it and bumps the counter. -/
theorem importStep_of_some (st : List Library × Nat) (row : CsvRow)
    (a t : String) (h : rowPair row = some (a, t)) :
    importStep st row =
      if hasPair st.1 a t then st else (st.1 ++ [⟨a, t⟩], st.2 + 1) := by
  unfold importStep
  unfold rowPair at h
  by_cases h1 : (pyTruthy row.authors && pyTruthy row.title) = true
  · rw [if_pos h1] at h ⊢
    by_cases h2 : (!(pyStrip (row.authors.getD "") == "") &&
        !(pyStrip (row.title.getD "") == "")) = true
    · rw [if_pos h2] at h ⊢
      have ha : pyStrip (row.authors.getD "") = a := congrArg Prod.fst (Option.some.inj h)
      have ht : pyStrip (row.title.getD "") = t := congrArg Prod.snd (Option.some.inj h)
      subst ha
      subst ht
      unfold hasPair
      cases hfind : st.1.find? (fun b =>
          b.authors == pyStrip (row.authors.getD "") &&
          b.title == pyStrip (row.title.getD "")) with
      | some b => simp [hfind]
      | none => simp [hfind]
    · rw [if_neg h2] at h
      cases h
  · rw [if_neg h1] at h
    cases h

/-- Membership reading of the `first()` lookup. -/
theorem hasPair_iff (library : List Library) (a t : String) :
    hasPair library a t = true ↔ ∃ b ∈ library, b.authors = a ∧ b.title = t := by
  unfold hasPair
  rw [Option.isSome_iff_exists]
  constructor
  · rintro ⟨b, hb⟩
    have hp := List.find?_some hb
    simp only [Bool.and_eq_true, beq_iff_eq] at hp
    exact ⟨b, List.mem_of_find?_eq_some hb, hp⟩
  · rintro ⟨b, hmem, ha, ht⟩
    cases hfind : library.find? (fun b => b.authors == a && b.title == t) with
    | some x => exact ⟨x, rfl⟩
    | none =>
      rw [List.find?_eq_none] at hfind
      have := hfind b hmem
      simp [ha, ht] at this

/-- A pair present in the library stays present after appending rows. -/
theorem hasPair_append_left (lib ext : List Library) (a t : String)
    (h : hasPair lib a t = true) : hasPair (lib ++ ext) a t = true := by
  rw [hasPair_iff] at h ⊢
  obtain ⟨b, hmem, hb⟩ := h
  exact ⟨b, List.mem_append_left _ hmem, hb⟩

/-- The freshly appended pair is present. -/
theorem hasPair_appended (lib : List Library) (a t : String) :
    hasPair (lib ++ [⟨a, t⟩]) a t = true := by
  rw [hasPair_iff]
  exact ⟨⟨a, t⟩, List.mem_append_right _ (List.mem_singleton_self _), rfl, rfl⟩

/-- Running the importer loop only appends rows, and the counter advances
by exactly the number of appended rows. -/
theorem import_decomp (rows : List CsvRow) :
    ∀ (library : List Library) (c : Nat),
    ∃ ext : List Library,
      rows.foldl importStep (library, c) = (library ++ ext, c + ext.length) := by
  induction rows with
  | nil =>
    intro lib c
    exact ⟨[], by simp⟩
  | cons r rs ih =>
    intro lib c
    rw [List.foldl_cons]
    cases hr : rowPair r with
    | none =>
      rw [importStep_of_none _ _ hr]
      exact ih lib c
    | some p =>
      obtain ⟨a, t⟩ := p
      rw [importStep_of_some _ _ _ _ hr]
      by_cases hp : hasPair lib a t = true
      · rw [if_pos hp]
        exact ih lib c
      · rw [if_neg hp]
        obtain ⟨ext, hext⟩ := ih (lib ++ [⟨a, t⟩]) (c + 1)
        refine ⟨⟨a, t⟩ :: ext, ?_⟩
        rw [hext]
        simp only [List.append_assoc, List.singleton_append, List.length_cons,
          Prod.mk.injEq]
        exact ⟨trivial, by omega⟩

/-- After the importer loop runs, the stripped pair of every valid row of
the source is present in the library table. -/
theorem import_complete (rows : List CsvRow) :
    ∀ (library : List Library) (c : Nat) (r : CsvRow), r ∈ rows →
    ∀ a t, rowPair r = some (a, t) →
    hasPair ((rows.foldl importStep (library, c)).1) a t = true := by
  induction rows with
  | nil =>
    intro lib c r hr
    cases hr
  | cons r0 rs ih =>
    intro lib c r hr a t hpair
    rw [List.foldl_cons]
    rcases List.mem_cons.mp hr with h | h
    · subst h
      rw [importStep_of_some _ _ _ _ hpair]
      by_cases hp : hasPair lib a t = true
      · rw [if_pos hp]
        obtain ⟨ext, hext⟩ := import_decomp rs lib c
        rw [hext]
        exact hasPair_append_left _ _ _ _ hp
      · rw [if_neg hp]
        obtain ⟨ext, hext⟩ := import_decomp rs (lib ++ [⟨a, t⟩]) (c + 1)
        rw [hext]
        exact hasPair_append_left _ _ _ _ (hasPair_appended lib a t)
    · have := ih (importStep (lib, c) r0).1 (importStep (lib, c) r0).2 r h a t hpair
      simpa using this

/-- When every valid row of the source already has its pair in the
library, the importer loop is the identity and counts nothing. -/
theorem import_fixed (rows : List CsvRow) :
    ∀ (library : List Library) (c : Nat),
    (∀ r ∈ rows, ∀ a t, rowPair r = some (a, t) → hasPair library a t = true) →
    rows.foldl importStep (library, c) = (library, c) := by
  induction rows with
  | nil =>
    intro lib c _
    rfl
  | cons r0 rs ih =>
    intro lib c h
    rw [List.foldl_cons]
    cases hr : rowPair r0 with
    | none =>
      rw [importStep_of_none _ _ hr]
      exact ih lib c (fun r hr' => h r (List.mem_cons_of_mem _ hr'))
    | some p =>
      obtain ⟨a, t⟩ := p
      rw [importStep_of_some _ _ _ _ hr,
        if_pos (h r0 (List.mem_cons_self _ _) a t hr)]
      exact ih lib c (fun r hr' => h r (List.mem_cons_of_mem _ hr'))

/-- C4 (confirmed): the importer is idempotent — a second run of
`import_books_from_csv` on the same source rows, against the state left
by the first run, inserts zero new library rows, leaving the table equal
to the state after the first run. -/
theorem importer_idempotent (fieldnames : List String) (rows : List CsvRow)
    (library : List Library) (o : ImportOutcome)
    (h : import_books_from_csv fieldnames rows library = Except.ok o) :
    import_books_from_csv fieldnames rows o.library =
      Except.ok ⟨o.library, 0, none⟩ := by
  unfold import_books_from_csv at h ⊢
  by_cases hf : (!(fieldnames.contains "authors") ||
      !(fieldnames.contains "title")) = true
  · rw [if_pos hf] at h
    cases h
  · rw [if_neg hf] at h ⊢
    have ho : o = ⟨(rows.foldl importStep (library, 0)).1,
        (rows.foldl importStep (library, 0)).2, none⟩ := by
      cases h
      rfl
    subst ho
    have hfix : rows.foldl importStep
        ((rows.foldl importStep (library, 0)).1, 0) =
        ((rows.foldl importStep (library, 0)).1, 0) :=
      import_fixed rows _ 0
        (fun r hr a t hpair => import_complete rows library 0 r hr a t hpair)
    rw [hfix]

/-- C4 witness: a concrete second run.  The source has one valid row, one
duplicate of it (differing in surrounding whitespace) and one blank row;
the second run against the table left by the first run changes nothing
and counts zero inserts. -/
theorem importer_idempotent_witness :
    import_books_from_csv ["authors", "title"]
      [⟨some "Ann Leckie", some " Ancillary Justice "⟩,
       ⟨some "Ann Leckie", some "Ancillary Justice"⟩,
       ⟨some "", some "X"⟩]
      [⟨"Ann Leckie", "Ancillary Justice"⟩] =
      Except.ok ⟨[⟨"Ann Leckie", "Ancillary Justice"⟩], 0, none⟩ :=
  importer_idempotent ["authors", "title"]
    [⟨some "Ann Leckie", some " Ancillary Justice "⟩,
     ⟨some "Ann Leckie", some "Ancillary Justice"⟩,
     ⟨some "", some "X"⟩]
    [] ⟨[⟨"Ann Leckie", "Ancillary Justice"⟩], 1, none⟩ rfl

/-- C9 (corrected): for a source with a valid header,
`import_books_from_csv` computes the number of newly inserted rows as
the count it prints (rows skipped as blank or duplicate are not
counted): the printed count equals the number of rows appended to the
library table.  The Python return value of the function, however, is
`None`, not that count. -/
theorem import_count_characterization (fieldnames : List String)
    (rows : List CsvRow) (library : List Library) (o : ImportOutcome)
    (h : import_books_from_csv fieldnames rows library = Except.ok o) :
    o.ret = none ∧
    ∃ ext : List Library, o.library = library ++ ext ∧
      o.printedCount = ext.length := by
  unfold import_books_from_csv at h
  by_cases hf : (!(fieldnames.contains "authors") ||
      !(fieldnames.contains "title")) = true
  · rw [if_pos hf] at h
    cases h
  · rw [if_neg hf] at h
    have ho : o = ⟨(rows.foldl importStep (library, 0)).1,
        (rows.foldl importStep (library, 0)).2, none⟩ := by
      cases h
      rfl
    subst ho
    obtain ⟨ext, hext⟩ := import_decomp rows library 0
    refine ⟨rfl, ext, ?_, ?_⟩
    · rw [hext]
    · rw [hext]
      simp

/-- C9 witness: concrete run with one inserted row, one duplicate and one
blank row: the printed count 1 equals the single appended row, and the
return value is `none`. -/
theorem import_count_characterization_witness :
    (none : Option Nat) = none ∧
    ∃ ext : List Library,
      ([⟨"B. Author", "Some Title"⟩] : List Library) = [] ++ ext ∧
      (1 : Nat) = ext.length :=
  import_count_characterization ["authors", "title"]
    [⟨some "B. Author", some "Some Title"⟩,
     ⟨some " B. Author ", some "Some Title"⟩,
     ⟨none, some "X"⟩]
    [] ⟨[⟨"B. Author", "Some Title"⟩], 1, none⟩ rfl

/-- C9 counterexample: on a source with one valid row the importer
inserts one row and prints the count 1, but the function falls off the
end of its body, so its Python return value (the `ret` field) is `none`
rather than the insert count — the claim that the count is returned
fails on this input. -/
theorem import_return_counterexample :
    import_books_from_csv ["authors", "title"]
      [⟨some "George Saunders", some "Lincoln in the Bardo"⟩] [] =
      Except.ok ⟨[⟨"George Saunders", "Lincoln in the Bardo"⟩], 1, none⟩ :=
  rfl

/-- A feed entry with a missing or empty field leaves the collected list
unchanged. -/
theorem entryStep_of_none (library : List Library)
    (missing_books : List MissingBook) (entry : FeedEntry)
    (h : entryPair entry = none) :
    entryStep library missing_books entry = missing_books := by
  unfold entryStep
  unfold entryPair at h
  by_cases h1 : (pyTruthy entry.author_name && pyTruthy entry.title) = true
  · rw [if_pos h1] at h
    cases h
  · rw [if_neg h1]

/-- A valid feed entry is dropped when owned, otherwise collected with
first-seen deduplication. -/
theorem entryStep_of_some (library : List Library)
    (missing_books : List MissingBook) (entry : FeedEntry) (a t : String)
    (h : entryPair entry = some ⟨a, t⟩) :
    entryStep library missing_books entry =
      if libHas library ⟨a, t⟩ then missing_books
      else dedupStep missing_books ⟨a, t⟩ := by
  unfold entryStep
  unfold entryPair at h
  by_cases h1 : (pyTruthy entry.author_name && pyTruthy entry.title) = true
  · rw [if_pos h1] at h ⊢
    have ha : pyStrip (entry.author_name.getD "") = a :=
      congrArg MissingBook.authors (Option.some.inj h)
    have ht : pyStrip (entry.title.getD "") = t :=
      congrArg MissingBook.title (Option.some.inj h)
    subst ha
    subst ht
    unfold libHas dedupStep
    cases hfind : library.find? (fun r =>
        r.authors == pyStrip (entry.author_name.getD "") &&
        r.title == pyStrip (entry.title.getD "")) with
    | some b => simp [hfind]
    | none => simp [hfind]
  · rw [if_neg h1] at h
    cases h

/-- Membership reading of the ownership lookup of the differ. -/
theorem libHas_iff (library : List Library) (b : MissingBook) :
    libHas library b = true ↔
      ∃ r ∈ library, r.authors = b.authors ∧ r.title = b.title := by
  unfold libHas
  rw [Option.isSome_iff_exists]
  constructor
  · rintro ⟨r, hr⟩
    have hp := List.find?_some hr
    simp only [Bool.and_eq_true, beq_iff_eq] at hp
    exact ⟨r, List.mem_of_find?_eq_some hr, hp⟩
  · rintro ⟨r, hmem, ha, ht⟩
    cases hfind : library.find? (fun r =>
        r.authors == b.authors && r.title == b.title) with
    | some x => exact ⟨x, rfl⟩
    | none =>
      rw [List.find?_eq_none] at hfind
      have := hfind r hmem
      simp [ha, ht] at this

/-- The reconciler lookup succeeds exactly on an exact stripped match:
found case. -/
theorem scanStep_found (books : List Book) (lib_book : Library)
    (h : ∃ b ∈ books, b.authors = pyStrip lib_book.authors ∧
      b.title = pyStrip lib_book.title) :
    Library.scanStep books lib_book =
      setFirstActive books (pyStrip lib_book.authors) (pyStrip lib_book.title) := by
  unfold Library.scanStep
  cases hfind : books.find? (fun b => b.authors == pyStrip lib_book.authors &&
      b.title == pyStrip lib_book.title) with
  | some b => rfl
  | none =>
    obtain ⟨b, hmem, ha, ht⟩ := h
    rw [List.find?_eq_none] at hfind
    have := hfind b hmem
    simp [ha, ht] at this

/-- The reconciler lookup succeeds exactly on an exact stripped match:
not-found case. -/
theorem scanStep_not_found (books : List Book) (lib_book : Library)
    (h : ¬∃ b ∈ books, b.authors = pyStrip lib_book.authors ∧
      b.title = pyStrip lib_book.title) :
    Library.scanStep books lib_book =
      books ++ [⟨pyStrip lib_book.authors, pyStrip lib_book.title,
        BookStatus.ACTIVE⟩] := by
  unfold Library.scanStep
  cases hfind : books.find? (fun b => b.authors == pyStrip lib_book.authors &&
      b.title == pyStrip lib_book.title) with
  | some b =>
    exfalso
    apply h
    have hp := List.find?_some hfind
    simp only [Bool.and_eq_true, beq_iff_eq] at hp
    exact ⟨b, List.mem_of_find?_eq_some hfind, hp⟩
  | none => rfl

/-- The pair contributed by a CSV row whose fields are present and
non-empty before and after stripping. -/
theorem rowPair_mk (a t : String) (ha : ¬a = "") (ht : ¬t = "")
    (hsa : ¬pyStrip a = "") (hst : ¬pyStrip t = "") :
    rowPair ⟨some a, some t⟩ = some (pyStrip a, pyStrip t) := by
  unfold rowPair pyTruthy
  simp [ha, ht, hsa, hst]

/-- The pair contributed by a feed entry whose fields are present and
non-empty. -/
theorem entryPair_mk (a t : String) (ha : ¬a = "") (ht : ¬t = "") :
    entryPair ⟨some a, some t⟩ = some ⟨pyStrip a, pyStrip t⟩ := by
  unfold entryPair pyTruthy
  simp [ha, ht]

/-- C2 (corrected): the comparison policy actually used at the three
lookup sites of the pipeline — the importer duplicate lookup, the
reconciler tracked-book lookup and the differ ownership/dedup lookups.
Each pair of strings is compared after stripping leading and trailing
whitespace only, by exact case-sensitive equality: the lookup succeeds
precisely when a stored row carries literally equal stripped strings.
Internal whitespace runs are not collapsed and letter case is
significant. -/
theorem comparison_policy (a t : String) (library : List Library)
    (books : List Book) (missing_books : List MissingBook) (c : Nat)
    (ha : ¬a = "") (ht : ¬t = "") :
    (importStep (library, c) ⟨some a, some t⟩ = (library, c) ↔
      pyStrip a = "" ∨ pyStrip t = "" ∨
      ∃ b ∈ library, b.authors = pyStrip a ∧ b.title = pyStrip t) ∧
    (entryStep library missing_books ⟨some a, some t⟩ = missing_books ↔
      (∃ b ∈ library, b.authors = pyStrip a ∧ b.title = pyStrip t) ∨
      ∃ m ∈ missing_books, m.authors = pyStrip a ∧ m.title = pyStrip t) ∧
    ((∃ b ∈ books, b.authors = pyStrip a ∧ b.title = pyStrip t) →
      Library.scanStep books ⟨a, t⟩ =
        setFirstActive books (pyStrip a) (pyStrip t)) ∧
    ((¬∃ b ∈ books, b.authors = pyStrip a ∧ b.title = pyStrip t) →
      Library.scanStep books ⟨a, t⟩ =
        books ++ [⟨pyStrip a, pyStrip t, BookStatus.ACTIVE⟩]) := by
  refine ⟨?_, ?_, ?_, ?_⟩
  · by_cases hsa : pyStrip a = ""
    · constructor
      · intro _
        exact Or.inl hsa
      · intro _
        apply importStep_of_none
        unfold rowPair pyTruthy
        simp [ha, ht, hsa]
    · by_cases hst : pyStrip t = ""
      · constructor
        · intro _
          exact Or.inr (Or.inl hst)
        · intro _
          apply importStep_of_none
          unfold rowPair pyTruthy
          simp [ha, ht, hst]
      · rw [importStep_of_some _ _ _ _ (rowPair_mk a t ha ht hsa hst)]
        constructor
        · intro he
          by_cases hp : hasPair library (pyStrip a) (pyStrip t) = true
          · exact Or.inr (Or.inr ((hasPair_iff _ _ _).mp hp))
          · rw [if_neg hp] at he
            have := congrArg (fun p => p.1.length) he
            simp at this
        · rintro (h | h | h)
          · exact absurd h hsa
          · exact absurd h hst
          · rw [if_pos ((hasPair_iff _ _ _).mpr h)]
  · rw [entryStep_of_some _ _ _ _ _ (entryPair_mk a t ha ht)]
    by_cases hp : libHas library ⟨pyStrip a, pyStrip t⟩ = true
    · rw [if_pos hp]
      have hiff := (libHas_iff library ⟨pyStrip a, pyStrip t⟩).mp hp
      simp only [true_iff]
      exact Or.inl hiff
    · rw [if_neg hp]
      unfold dedupStep
      by_cases hm : (missing_books.any (fun m =>
          m.authors == pyStrip a && m.title == pyStrip t)) = true
      · rw [if_pos hm]
        simp only [true_iff]
        refine Or.inr ?_
        obtain ⟨m, hmem, hme⟩ := List.any_eq_true.mp hm
        simp only [Bool.and_eq_true, beq_iff_eq] at hme
        exact ⟨m, hmem, hme⟩
      · rw [if_neg hm]
        constructor
        · intro he
          have := congrArg List.length he
          simp at this
        · rintro (h | h)
          · exact absurd ((libHas_iff _ _).mpr h) hp
          · exfalso
            apply hm
            obtain ⟨m, hmem, hma, hmt⟩ := h
            exact List.any_eq_true.mpr ⟨m, hmem, by simp [hma, hmt]⟩
  · intro h
    exact scanStep_found books ⟨a, t⟩ h
  · intro h
    exact scanStep_not_found books ⟨a, t⟩ h

/-- C2 witness: the policy instantiated at a concrete pair and concrete
(empty) tables. -/
theorem comparison_policy_witness :
    (importStep ([], 0) ⟨some "An Author", some "A Title"⟩ = ([], 0) ↔
      pyStrip "An Author" = "" ∨ pyStrip "A Title" = "" ∨
      ∃ b ∈ ([] : List Library), b.authors = pyStrip "An Author" ∧
        b.title = pyStrip "A Title") ∧
    (entryStep [] [] ⟨some "An Author", some "A Title"⟩ = [] ↔
      (∃ b ∈ ([] : List Library), b.authors = pyStrip "An Author" ∧
        b.title = pyStrip "A Title") ∨
      ∃ m ∈ ([] : List MissingBook), m.authors = pyStrip "An Author" ∧
        m.title = pyStrip "A Title") ∧
    ((∃ b ∈ ([] : List Book), b.authors = pyStrip "An Author" ∧
        b.title = pyStrip "A Title") →
      Library.scanStep [] ⟨"An Author", "A Title"⟩ =
        setFirstActive [] (pyStrip "An Author") (pyStrip "A Title")) ∧
    ((¬∃ b ∈ ([] : List Book), b.authors = pyStrip "An Author" ∧
        b.title = pyStrip "A Title") →
      Library.scanStep [] ⟨"An Author", "A Title"⟩ =
        [] ++ [⟨pyStrip "An Author", pyStrip "A Title", BookStatus.ACTIVE⟩]) :=
  comparison_policy "An Author" "A Title" [] [] [] 0
    (by decide) (by decide)

/-- C2 counterexample: two strings differing only in letter case do not
compare equal in the importer duplicate lookup — importing the pair with
authors "A" against a library holding the same pair with authors "a"
inserts a new row instead of matching, although the two strings are
normalized-equal in the sense of the spec (`specNormEq`). -/
theorem comparison_counterexample :
    import_books_from_csv ["authors", "title"] [⟨some "A", some "T"⟩]
        [⟨"a", "T"⟩] =
      Except.ok ⟨[⟨"a", "T"⟩, ⟨"A", "T"⟩], 1, none⟩ ∧
    specNormEq "A" "a" = true := by
  exact ⟨rfl, by decide⟩

/-- One differ entry step, phrased through the extracted pair. -/
theorem entryStep_eq_collect (library : List Library)
    (acc : List MissingBook) (e : FeedEntry) :
    entryStep library acc e =
      match entryPair e with
      | none => acc
      | some b => collectStep library acc b := by
  cases he : entryPair e with
  | none => rw [entryStep_of_none _ _ _ he]
  | some b =>
    obtain ⟨a, t⟩ := b
    rw [entryStep_of_some _ _ _ _ _ he]
    rfl

/-- Folding the entry step over a feed equals folding the collect step
over the extracted pairs. -/
theorem foldl_entry_filterMap (library : List Library) :
    ∀ (entries : List FeedEntry) (acc : List MissingBook),
    entries.foldl (entryStep library) acc =
      (entries.filterMap entryPair).foldl (collectStep library) acc := by
  intro entries
  induction entries with
  | nil =>
    intro acc
    rfl
  | cons e es ih =>
    intro acc
    rw [List.foldl_cons, entryStep_eq_collect]
    cases he : entryPair e with
    | none =>
      simp only [List.filterMap_cons, he]
      exact ih acc
    | some b =>
      simp only [List.filterMap_cons, he, List.foldl_cons]
      exact ih (collectStep library acc b)

/-- A bozo feed contributes nothing. -/
theorem feedStep_bozo (library : List Library) (acc : List MissingBook)
    (f : Feed) (hb : f.bozo = true) : feedStep library acc f = acc := by
  unfold feedStep
  rw [if_pos hb]

/-- A well-formed feed contributes its entries in document order. -/
theorem feedStep_ok (library : List Library) (acc : List MissingBook)
    (f : Feed) (hb : f.bozo = false) :
    feedStep library acc f = f.entries.foldl (entryStep library) acc := by
  unfold feedStep
  rw [if_neg (by simp [hb])]

/-- An owned pair is dropped by the collect step. -/
theorem collectStep_owned (library : List Library) (acc : List MissingBook)
    (b : MissingBook) (hp : libHas library b = true) :
    collectStep library acc b = acc := by
  unfold collectStep
  rw [if_pos hp]

/-- A non-owned pair goes through first-seen deduplication. -/
theorem collectStep_new (library : List Library) (acc : List MissingBook)
    (b : MissingBook) (hp : libHas library b = false) :
    collectStep library acc b = dedupStep acc b := by
  unfold collectStep
  rw [if_neg (by simp [hp])]

/-- Folding the feed step over the feeds equals folding the collect step
over the flattened wishlist. -/
theorem check_aux (library : List Library) :
    ∀ (feeds : List Feed) (acc : List MissingBook),
    feeds.foldl (feedStep library) acc =
      (wishlistSeq feeds).foldl (collectStep library) acc := by
  intro feeds
  induction feeds with
  | nil =>
    intro acc
    rfl
  | cons f fs ih =>
    intro acc
    rw [List.foldl_cons]
    by_cases hb : f.bozo = true
    · rw [feedStep_bozo library acc f hb, ih acc]
      have hw : wishlistSeq (f :: fs) = wishlistSeq fs := by
        simp [wishlistSeq, List.filter_cons, hb]
      rw [hw]
    · have hb' : f.bozo = false := by simpa using hb
      rw [feedStep_ok library acc f hb',
        foldl_entry_filterMap library f.entries acc, ih]
      have hw : wishlistSeq (f :: fs) =
          f.entries.filterMap entryPair ++ wishlistSeq fs := by
        simp [wishlistSeq, List.filter_cons, hb']
      rw [hw, List.foldl_append]

/-- Folding the collect step from an accumulator equals folding the dedup
step over the non-owned pairs. -/
theorem foldl_collect_filter (library : List Library) :
    ∀ (l : List MissingBook) (acc : List MissingBook),
    l.foldl (collectStep library) acc =
      (l.filter (fun b => !(libHas library b))).foldl dedupStep acc := by
  intro l
  induction l with
  | nil =>
    intro acc
    rfl
  | cons b bs ih =>
    intro acc
    rw [List.foldl_cons]
    by_cases hp : libHas library b = true
    · rw [collectStep_owned library acc b hp, ih acc]
      simp [List.filter_cons, hp]
    · have hp' : libHas library b = false := by simpa using hp
      rw [collectStep_new library acc b hp', ih (dedupStep acc b)]
      simp [List.filter_cons, hp']

/-- C3 (corrected): the differ output is exactly the deduplicated
sequence, in first-seen order across feeds (feeds in input order,
entries within a feed in document order), of the stripped wishlist
pairs that have no exactly equal collection record — ownership is
decided by exact case-sensitive comparison of the stripped strings, not
by case-insensitive normalized comparison.  The concrete example of the
claim holds as stated: with collection A/T1 and wishlist entries
A/T1, B/T2, B/T2 the output is exactly B/T2. -/
theorem differ_output_characterization (feeds : List Feed)
    (library : List Library) :
    Library.check_goodreads_rss feeds library = differSpec feeds library ∧
    Library.check_goodreads_rss
      [⟨false, [⟨some "A", some "T1"⟩, ⟨some "B", some "T2"⟩,
        ⟨some "B", some "T2"⟩]⟩]
      [⟨"A", "T1"⟩] = [⟨"B", "T2"⟩] := by
  constructor
  · unfold Library.check_goodreads_rss differSpec dedupFirstSeen
    rw [check_aux, foldl_collect_filter]
  · rfl

/-- C3 counterexample: a wishlist entry whose pair differs from a
collection record only in letter case is still emitted as missing,
although its normalized pair matches that record in the sense of the
spec (`specNormEq`) — so the output is not the set of entries whose
normalized pair has no matching collection record. -/
theorem differ_norm_counterexample :
    Library.check_goodreads_rss [⟨false, [⟨some "A", some "T1"⟩]⟩]
      [⟨"a", "t1"⟩] = [⟨"A", "T1"⟩] ∧
    specNormEq "A" "a" = true ∧ specNormEq "T1" "t1" = true :=
  ⟨rfl, by decide, by decide⟩

/-- C7 (confirmed): differ fault isolation.  A feed whose parse reports a
fatal structural error (the bozo flag) is skipped without aborting the
batch — the output over any feed list containing it equals the output
with that feed removed — and within a successfully parsed feed an entry
missing its author or title field is skipped while the remaining
entries of that feed are still processed. -/
theorem differ_fault_isolation (library : List Library) (pre post : List Feed)
    (f : Feed) (es1 es2 : List FeedEntry) (e : FeedEntry)
    (hf : f.bozo = true)
    (he : pyTruthy e.author_name = false ∨ pyTruthy e.title = false) :
    Library.check_goodreads_rss (pre ++ f :: post) library =
      Library.check_goodreads_rss (pre ++ post) library ∧
    Library.check_goodreads_rss (pre ++ ⟨false, es1 ++ e :: es2⟩ :: post) library =
      Library.check_goodreads_rss (pre ++ ⟨false, es1 ++ es2⟩ :: post) library := by
  have hep : entryPair e = none := by
    unfold entryPair
    rcases he with h | h
    · simp [h]
    · simp [h]
  constructor
  · unfold Library.check_goodreads_rss
    rw [check_aux, check_aux]
    have hw : wishlistSeq (pre ++ f :: post) = wishlistSeq (pre ++ post) := by
      simp [wishlistSeq, List.filter_append, List.filter_cons, hf]
    rw [hw]
  · unfold Library.check_goodreads_rss
    rw [check_aux, check_aux]
    have hw : wishlistSeq (pre ++ ⟨false, es1 ++ e :: es2⟩ :: post) =
        wishlistSeq (pre ++ ⟨false, es1 ++ es2⟩ :: post) := by
      simp [wishlistSeq, List.filter_append, List.filter_cons,
        List.filterMap_append, List.filterMap_cons, hep]
    rw [hw]

/-- C7 witness: three feeds with the middle one malformed give the same
output as the two good ones alone, and a middle entry lacking its author
field is skipped while its siblings are processed. -/
theorem differ_fault_isolation_witness :
    Library.check_goodreads_rss
      [⟨false, [⟨some "X", some "T1"⟩]⟩, ⟨true, [⟨some "Y", some "T2"⟩]⟩,
       ⟨false, [⟨some "Z", some "T3"⟩]⟩] [] =
      Library.check_goodreads_rss
        [⟨false, [⟨some "X", some "T1"⟩]⟩, ⟨false, [⟨some "Z", some "T3"⟩]⟩] [] ∧
    Library.check_goodreads_rss
      [⟨false, [⟨some "X", some "T1"⟩]⟩,
       ⟨false, [⟨some "E1", some "S1"⟩, ⟨none, some "T2"⟩,
         ⟨some "E2", some "S2"⟩]⟩,
       ⟨false, [⟨some "Z", some "T3"⟩]⟩] [] =
      Library.check_goodreads_rss
        [⟨false, [⟨some "X", some "T1"⟩]⟩,
         ⟨false, [⟨some "E1", some "S1"⟩, ⟨some "E2", some "S2"⟩]⟩,
         ⟨false, [⟨some "Z", some "T3"⟩]⟩] [] :=
  differ_fault_isolation [] [⟨false, [⟨some "X", some "T1"⟩]⟩]
    [⟨false, [⟨some "Z", some "T3"⟩]⟩] ⟨true, [⟨some "Y", some "T2"⟩]⟩
    [⟨some "E1", some "S1"⟩] [⟨some "E2", some "S2"⟩] ⟨none, some "T2"⟩
    rfl (Or.inl rfl)

/-- The row-change relation is reflexive. -/
theorem bookRefines_refl (b : Book) : bookRefines b b :=
  ⟨rfl, rfl, Or.inl rfl⟩

/-- Every list of rows refines itself. -/
theorem forall₂_refines_refl (l : List Book) : List.Forall₂ bookRefines l l :=
  List.forall₂_same.mpr (fun x _ => bookRefines_refl x)

/-- The row-change relation composes. -/
theorem bookRefines_trans (a b c : Book) (h1 : bookRefines a b)
    (h2 : bookRefines b c) : bookRefines a c := by
  obtain ⟨ha1, ht1, hs1⟩ := h1
  obtain ⟨ha2, ht2, hs2⟩ := h2
  refine ⟨ha2.trans ha1, ht2.trans ht1, ?_⟩
  rcases hs2 with h | h
  · rw [h]
    exact hs1
  · exact Or.inr h

/-- Pointwise composition of row refinement. -/
theorem forall₂_refines_trans : ∀ {l1 l2 l3 : List Book},
    List.Forall₂ bookRefines l1 l2 → List.Forall₂ bookRefines l2 l3 →
    List.Forall₂ bookRefines l1 l3 := by
  intro l1 l2 l3 h12
  induction h12 generalizing l3 with
  | nil =>
    intro h
    exact h
  | cons hab h' ih =>
    intro h23
    cases h23 with
    | cons hbc h'' => exact List.Forall₂.cons (bookRefines_trans _ _ _ hab hbc) (ih h'')

/-- Splitting a pointwise refinement along an append on the left. -/
theorem forall₂_append_split {R : Book → Book → Prop} :
    ∀ (l1 l2 l3 : List Book), List.Forall₂ R (l1 ++ l2) l3 →
    ∃ m1 m2, l3 = m1 ++ m2 ∧ List.Forall₂ R l1 m1 ∧ List.Forall₂ R l2 m2 := by
  intro l1
  induction l1 with
  | nil =>
    intro l2 l3 h
    exact ⟨[], l3, rfl, List.Forall₂.nil, h⟩
  | cons a l1 ih =>
    intro l2 l3 h
    rw [List.cons_append] at h
    cases h with
    | cons hab h' =>
      rename_i b l3'
      obtain ⟨m1, m2, rfl, h1, h2⟩ := ih l2 l3' h'
      exact ⟨b :: m1, m2, rfl, List.Forall₂.cons hab h1, h2⟩

/-- Membership transfer along a pointwise refinement. -/
theorem forall₂_mem_left {R : Book → Book → Prop} :
    ∀ {l1 l2 : List Book}, List.Forall₂ R l1 l2 →
    ∀ b ∈ l1, ∃ b' ∈ l2, R b b' := by
  intro l1 l2 h
  induction h with
  | nil =>
    intro b hb
    cases hb
  | cons hab h' ih =>
    intro b hb
    rcases List.mem_cons.mp hb with rfl | hmem
    · exact ⟨_, List.mem_cons_self _ _, hab⟩
    · obtain ⟨b', hb', hr⟩ := ih b hmem
      exact ⟨b', List.mem_cons_of_mem _ hb', hr⟩

/-- Marking the first matching row active only refines the table. -/
theorem setFirstActive_refines (a t : String) :
    ∀ books : List Book, List.Forall₂ bookRefines books (setFirstActive books a t) := by
  intro books
  induction books with
  | nil => exact List.Forall₂.nil
  | cons b bs ih =>
    simp only [setFirstActive]
    by_cases hb : (b.authors == a && b.title == t) = true
    · rw [if_pos hb]
      exact List.Forall₂.cons ⟨rfl, rfl, Or.inr rfl⟩ (forall₂_refines_refl bs)
    · rw [if_neg hb]
      exact List.Forall₂.cons (bookRefines_refl b) ih

/-- One reconciler step either refines the table in place or appends one
new ACTIVE row. -/
theorem scanStep_refines (books : List Book) (lib_book : Library) :
    List.Forall₂ bookRefines books (Library.scanStep books lib_book) ∨
    Library.scanStep books lib_book =
      books ++ [⟨pyStrip lib_book.authors, pyStrip lib_book.title,
        BookStatus.ACTIVE⟩] := by
  unfold Library.scanStep
  cases hfind : books.find? (fun b => b.authors == pyStrip lib_book.authors &&
      b.title == pyStrip lib_book.title) with
  | some b =>
    left
    exact setFirstActive_refines _ _ books
  | none =>
    right
    rfl

/-- Decomposition of a full reconciler run: the final table is the
original rows, each refined in place, followed by newly appended ACTIVE
rows. -/
theorem scan_decomp : ∀ (lbs : List Library) (books : List Book),
    ∃ upd ext, Library.scan_and_update_books lbs books = upd ++ ext ∧
      List.Forall₂ bookRefines books upd ∧
      ∀ b ∈ ext, b.status = BookStatus.ACTIVE := by
  intro lbs
  induction lbs with
  | nil =>
    intro books
    exact ⟨books, [], by simp [Library.scan_and_update_books],
      forall₂_refines_refl books, by simp⟩
  | cons lb lbs ih =>
    intro books
    have hs : Library.scan_and_update_books (lb :: lbs) books =
        Library.scan_and_update_books lbs (Library.scanStep books lb) := rfl
    rw [hs]
    obtain ⟨upd, ext, heq, hf, hext⟩ := ih (Library.scanStep books lb)
    rcases scanStep_refines books lb with h | h
    · exact ⟨upd, ext, heq, forall₂_refines_trans h hf, hext⟩
    · rw [h] at hf
      obtain ⟨m1, m2, rfl, h1, h2⟩ := forall₂_append_split books _ upd hf
      cases h2 with
      | cons hb h2' =>
        cases h2'
        rename_i b'
        refine ⟨m1, b' :: ext, ?_, h1, ?_⟩
        · rw [heq]
          simp
        · intro b hbmem
          rcases List.mem_cons.mp hbmem with rfl | hmem
          · obtain ⟨_, _, hs'⟩ := hb
            rcases hs' with hcase | hcase
            · exact hcase
            · exact hcase
          · exact hext b hmem

/-- C8 (confirmed): reconciler lifecycle invariant.  A reconciler run
never deletes a tracked-book row: the final table is the original rows
in order — authors and title untouched, status either unchanged or set
to ACTIVE, and never newly set to MISSING — followed only by newly
inserted ACTIVE rows for new pairs. -/
theorem reconciler_lifecycle (library_books : List Library) (books : List Book) :
    ∃ upd ext, Library.scan_and_update_books library_books books = upd ++ ext ∧
      List.Forall₂ (fun b b' => b'.authors = b.authors ∧ b'.title = b.title ∧
        (b'.status = b.status ∨ b'.status = BookStatus.ACTIVE) ∧
        (b'.status = BookStatus.MISSING → b.status = BookStatus.MISSING))
        books upd ∧
      ∀ b ∈ ext, b.status = BookStatus.ACTIVE := by
  obtain ⟨upd, ext, heq, hf, hext⟩ := scan_decomp library_books books
  refine ⟨upd, ext, heq, ?_, hext⟩
  refine hf.imp ?_
  intro a b h
  obtain ⟨ha, ht, hs⟩ := h
  refine ⟨ha, ht, hs, ?_⟩
  intro hm
  rcases hs with h | h
  · exact h.symm.trans hm
  · exact absurd (h.symm.trans hm) (by decide)

/-- A row already ACTIVE with given columns keeps an ACTIVE witness with
the same columns through a whole reconciler run. -/
theorem scan_preserves_active (lbs : List Library) (books : List Book)
    (b : Book) (hmem : b ∈ books) (hact : b.status = BookStatus.ACTIVE) :
    ∃ b' ∈ Library.scan_and_update_books lbs books,
      b'.authors = b.authors ∧ b'.title = b.title ∧
      b'.status = BookStatus.ACTIVE := by
  obtain ⟨upd, ext, heq, hf, hext⟩ := scan_decomp lbs books
  obtain ⟨b', hb', hr⟩ := forall₂_mem_left hf b hmem
  obtain ⟨ha, ht, hs⟩ := hr
  refine ⟨b', ?_, ha, ht, ?_⟩
  · rw [heq]
    exact List.mem_append_left _ hb'
  · rcases hs with h | h
    · rw [h, hact]
    · exact h

/-- Marking the first matching row active yields an ACTIVE row with the
looked-up columns whenever a match exists. -/
theorem setFirstActive_establishes (a t : String) :
    ∀ books : List Book,
    (∃ b ∈ books, (b.authors == a && b.title == t) = true) →
    ∃ b' ∈ setFirstActive books a t,
      b'.authors = a ∧ b'.title = t ∧ b'.status = BookStatus.ACTIVE := by
  intro books
  induction books with
  | nil =>
    rintro ⟨b, hb, _⟩
    cases hb
  | cons b bs ih =>
    rintro ⟨b0, hb0, hp⟩
    simp only [setFirstActive]
    by_cases hb : (b.authors == a && b.title == t) = true
    · rw [if_pos hb]
      simp only [Bool.and_eq_true, beq_iff_eq] at hb
      exact ⟨b.mark_as_active, List.mem_cons_self _ _, hb.1, hb.2, rfl⟩
    · rw [if_neg hb]
      rcases List.mem_cons.mp hb0 with rfl | hmem
      · exact absurd hp hb
      · obtain ⟨b', hb', h⟩ := ih ⟨b0, hmem, hp⟩
        exact ⟨b', List.mem_cons_of_mem _ hb', h⟩

/-- One reconciler step leaves an ACTIVE row carrying the stripped pair
of the processed library row. -/
theorem scanStep_establishes (books : List Book) (lib_book : Library) :
    ∃ b ∈ Library.scanStep books lib_book,
      b.authors = pyStrip lib_book.authors ∧
      b.title = pyStrip lib_book.title ∧ b.status = BookStatus.ACTIVE := by
  unfold Library.scanStep
  cases hfind : books.find? (fun b => b.authors == pyStrip lib_book.authors &&
      b.title == pyStrip lib_book.title) with
  | some b0 =>
    have hmem := List.mem_of_find?_eq_some hfind
    have hp := List.find?_some hfind
    exact setFirstActive_establishes _ _ books ⟨b0, hmem, hp⟩
  | none =>
    exact ⟨⟨pyStrip lib_book.authors, pyStrip lib_book.title, BookStatus.ACTIVE⟩,
      List.mem_append_right _ (List.mem_singleton_self _), rfl, rfl, rfl⟩

/-- C5 (confirmed): reconciler totality.  After `scan_and_update_books`
completes, every library row has a corresponding `books` row carrying
exactly its stripped (authors, title) pair with status ACTIVE — either
an existing row flipped to ACTIVE or a newly inserted ACTIVE row. -/
theorem reconciler_totality (library_books : List Library) (books : List Book) :
    ∀ lib_book ∈ library_books,
    ∃ b ∈ Library.scan_and_update_books library_books books,
      b.authors = pyStrip lib_book.authors ∧
      b.title = pyStrip lib_book.title ∧ b.status = BookStatus.ACTIVE := by
  induction library_books generalizing books with
  | nil =>
    intro lb hlb
    cases hlb
  | cons lb0 lbs ih =>
    intro lb hlb
    have hs : Library.scan_and_update_books (lb0 :: lbs) books =
        Library.scan_and_update_books lbs (Library.scanStep books lb0) := rfl
    rw [hs]
    rcases List.mem_cons.mp hlb with rfl | hmem
    · obtain ⟨b, hb, ha, ht, hact⟩ := scanStep_establishes books lb
      obtain ⟨b', hb', ha', ht', hact'⟩ :=
        scan_preserves_active lbs (Library.scanStep books lb) b hb hact
      exact ⟨b', hb', by rw [ha', ha], by rw [ht', ht], hact'⟩
    · exact ih (Library.scanStep books lb0) lb hmem

/-- C5 witness: one library row with surrounding whitespace, starting
from an empty tracked table, produces its stripped ACTIVE row. -/
theorem reconciler_totality_witness :
    ∃ b ∈ Library.scan_and_update_books
        [⟨" Ann Leckie ", "Ancillary Justice"⟩] [],
      b.authors = pyStrip " Ann Leckie " ∧
      b.title = pyStrip "Ancillary Justice" ∧ b.status = BookStatus.ACTIVE :=
  reconciler_totality [⟨" Ann Leckie ", "Ancillary Justice"⟩] []
    ⟨" Ann Leckie ", "Ancillary Justice"⟩ (List.mem_singleton_self _)

/-- The result loop returns the download URL of the first result passing
all three checks of lines 245-256: truthy name, title filter, truthy dl
hash. -/
theorem searchLoop_eq_find (book_title : String) :
    ∀ results : List SearchResult,
    searchLoop book_title results =
      (results.find? (fun r => pyTruthy r.name &&
        titleWordsMatch book_title (r.name.getD "") && pyTruthy r.dl)).map
        (fun r => downloadUrlOf r.id) := by
  intro results
  induction results with
  | nil => rfl
  | cons r rs ih =>
    simp only [searchLoop]
    by_cases h1 : (pyTruthy r.name &&
        titleWordsMatch book_title (r.name.getD "")) = true
    · rw [if_pos h1]
      by_cases h2 : pyTruthy r.dl = true
      · rw [if_pos h2]
        have hp : (pyTruthy r.name &&
            titleWordsMatch book_title (r.name.getD "") && pyTruthy r.dl) = true := by
          simp only [Bool.and_eq_true] at h1 ⊢
          exact ⟨h1, h2⟩
        have hfind : List.find? (fun r : SearchResult => pyTruthy r.name &&
            titleWordsMatch book_title (r.name.getD "") && pyTruthy r.dl)
            (r :: rs) = some r := List.find?_cons_of_pos rs hp
        rw [hfind]
        rfl
      · have h2' : pyTruthy r.dl = false := by simpa using h2
        rw [if_neg h2, ih]
        have hp : ¬(pyTruthy r.name &&
            titleWordsMatch book_title (r.name.getD "") && pyTruthy r.dl) = true := by
          simp [h2']
        have hfind : List.find? (fun r : SearchResult => pyTruthy r.name &&
            titleWordsMatch book_title (r.name.getD "") && pyTruthy r.dl)
            (r :: rs) = List.find? (fun r : SearchResult => pyTruthy r.name &&
            titleWordsMatch book_title (r.name.getD "") && pyTruthy r.dl) rs :=
          List.find?_cons_of_neg rs hp
        rw [hfind]
    · have h1' : (pyTruthy r.name &&
          titleWordsMatch book_title (r.name.getD "")) = false := by simpa using h1
      rw [if_neg h1, ih]
      have hp : ¬(pyTruthy r.name &&
          titleWordsMatch book_title (r.name.getD "") && pyTruthy r.dl) = true := by
        simp [h1']
      have hfind : List.find? (fun r : SearchResult => pyTruthy r.name &&
          titleWordsMatch book_title (r.name.getD "") && pyTruthy r.dl)
          (r :: rs) = List.find? (fun r : SearchResult => pyTruthy r.name &&
          titleWordsMatch book_title (r.name.getD "") && pyTruthy r.dl) rs :=
        List.find?_cons_of_neg rs hp
      rw [hfind]

/-- The whole matcher as a first-match selection. -/
theorem search_eq_find (book_title book_author : String)
    (results : List SearchResult) :
    search_on_myanonamouse book_title book_author results =
      (results.find? (fun r => pyTruthy r.name &&
        titleWordsMatch book_title (r.name.getD "") && pyTruthy r.dl)).map
        (fun r => downloadUrlOf r.id) := by
  unfold search_on_myanonamouse
  cases results with
  | nil => rfl
  | cons r rs =>
    rw [if_neg (by simp)]
    exact searchLoop_eq_find book_title (r :: rs)

/-- C6 (corrected): matcher selection policy.  The selected candidate is
the first result, in index order, whose display name is non-empty and
contains every whitespace-delimited token of the requested title as a
case-insensitive substring AND whose download-hash field is non-empty;
with no such candidate the matcher returns the sentinel `none`, not an
exception.  Because every token is required, requested title
"The Fire Next Time" does not match the display
"Fire Next Time: A Novel (Unabridged)" (token "the" is absent there),
while it does match "The Fire Next Time: A Novel (Unabridged)", and
"The Last Time" is rejected. -/
theorem matcher_selection (book_title book_author : String)
    (results : List SearchResult) :
    search_on_myanonamouse book_title book_author results =
      (results.find? (fun r => pyTruthy r.name &&
        titleWordsMatch book_title (r.name.getD "") && pyTruthy r.dl)).map
        (fun r => downloadUrlOf r.id) ∧
    titleWordsMatch "The Fire Next Time" "The Last Time" = false ∧
    titleWordsMatch "The Fire Next Time"
      "Fire Next Time: A Novel (Unabridged)" = false ∧
    titleWordsMatch "The Fire Next Time"
      "The Fire Next Time: A Novel (Unabridged)" = true :=
  ⟨search_eq_find book_title book_author results, by decide, by decide, by decide⟩

/-- C6 counterexample: the example of the claim fails on the code.  A
single candidate displaying "Fire Next Time: A Novel (Unabridged)" with
a non-empty download hash is NOT selected for requested title
"The Fire Next Time" — the matcher returns `none` because the token
"the" does not occur in the display — although the claim asserts this
candidate matches and would be selected. -/
theorem matcher_title_counterexample :
    search_on_myanonamouse "The Fire Next Time" "James Baldwin"
      [⟨some "Fire Next Time: A Novel (Unabridged)", some "abc123", some 5, []⟩] =
      none ∧
    titleWordsMatch "The Fire Next Time"
      "Fire Next Time: A Novel (Unabridged)" = false :=
  ⟨rfl, by decide⟩

/-- The result loop never reads the author mapping of a candidate. -/
theorem searchLoop_author_irrelevant (book_title : String)
    (f : SearchResult → List (String × String)) :
    ∀ results : List SearchResult,
    searchLoop book_title (results.map (fun r => ⟨r.name, r.dl, r.id, f r⟩)) =
      searchLoop book_title results := by
  intro results
  induction results with
  | nil => rfl
  | cons r rs ih =>
    simp only [List.map_cons, searchLoop]
    rw [ih]

/-- C1 (corrected): the matcher performs no author check at all.  Its
outcome is unchanged if every candidate has its id-to-name author
mapping replaced arbitrarily, and unchanged if the requested author is
replaced arbitrarily — so a candidate whose mapped names all differ from
the requested author can still be selected (title filter plus non-empty
download hash decide selection alone). -/
theorem matcher_ignores_author (book_title a1 a2 : String)
    (results : List SearchResult)
    (f : SearchResult → List (String × String)) :
    search_on_myanonamouse book_title a1
        (results.map (fun r => ⟨r.name, r.dl, r.id, f r⟩)) =
      search_on_myanonamouse book_title a2 results := by
  unfold search_on_myanonamouse
  cases results with
  | nil => rfl
  | cons r rs =>
    rw [if_neg (by simp), if_neg (by simp)]
    exact searchLoop_author_irrelevant book_title f (r :: rs)

/-- C1 counterexample: a candidate whose only mapped author name,
"J. Baldwin", is not normalized-equal to the requested author
"James Baldwin" is nevertheless selected (its title passes and its
download hash is non-empty), contradicting the claim that such a
candidate is never selected. -/
theorem matcher_author_counterexample :
    search_on_myanonamouse "The Fire Next Time" "James Baldwin"
      [⟨some "The Fire Next Time", some "abc123", some 9,
        [("42", "J. Baldwin")]⟩] =
      some (downloadUrlOf (some 9)) ∧
    specNormEq "J. Baldwin" "James Baldwin" = false :=
  ⟨rfl, by decide⟩

/-- C10 (confirmed): a requested title that is empty or whitespace-only
has an empty token list, so the title filter passes vacuously and the
matcher returns the download URL built from the first result having a
non-empty display name and a non-empty download-hash field, whatever
that result is. -/
theorem matcher_empty_title (book_title book_author : String)
    (results : List SearchResult) (h : pySplit book_title = []) :
    search_on_myanonamouse book_title book_author results =
      (results.find? (fun r => pyTruthy r.name && pyTruthy r.dl)).map
        (fun r => downloadUrlOf r.id) := by
  rw [search_eq_find]
  have ht : ∀ r : SearchResult,
      titleWordsMatch book_title (r.name.getD "") = true := by
    intro r
    unfold titleWordsMatch
    rw [h]
    rfl
  have hp : (fun r : SearchResult => pyTruthy r.name &&
      titleWordsMatch book_title (r.name.getD "") && pyTruthy r.dl) =
      (fun r : SearchResult => pyTruthy r.name && pyTruthy r.dl) := by
    funext r
    rw [ht r]
    simp
  rw [hp]

/-- C10 witness: a whitespace-only requested title selects the first
result with both a non-empty name and a non-empty dl hash — here the
second result, an arbitrary unrelated torrent, because the first lacks
a dl hash. -/
theorem matcher_empty_title_witness :
    search_on_myanonamouse "   " "anyone"
      [⟨some "Completely Unrelated", none, some 1, []⟩,
       ⟨some "Another Random Torrent", some "ffff", some 3, []⟩] =
      some (downloadUrlOf (some 3)) :=
  (matcher_empty_title "   " "anyone"
    [⟨some "Completely Unrelated", none, some 1, []⟩,
     ⟨some "Another Random Torrent", some "ffff", some 3, []⟩]
    (by decide)).trans rfl
